import Mathlib

/-!
# Transciber dashboard client: `frontend/static/js/upload.js`

A shallow embedding of the client script and the properties of its
request/response handling.

Modelling conventions.

* A JavaScript number is a finite binary64 value, given by the rational it
  denotes. A number field of a response holds the number as the JSON text
  writes it and is rounded to binary64 (`fl`, round to nearest, ties to even,
  subnormals included) where the script reads it, as `JSON.parse` does;
  division and multiplication round their exact result with `fl`, while `%`,
  `Math.floor` and `Math.min` are exact.
* Every number literal of a response is taken to parse to a finite number
  (magnitude below `2^1024`), so `NaN` and the infinities do not reach the
  script; of the operations on finite numbers only the confidence product
  can overflow, and it reports `Infinity`. The sign of zero is not
  represented: `-0` and `0` are falsy alike and print alike.
* An integer-valued number is printed as `Number::toString` does: plain
  decimal digits below `10^21`, the shortest digits in exponent form above.
* A value that may be `undefined` is an `Option`; truthiness (`!x`, `x || y`,
  `x ? a : b`) is made explicit: an absent value, the empty string and the
  number `0` are falsy, an object is truthy.
* The page is a record of the element properties the script writes, together
  with logs of the effects it causes (alerts, confirmation prompts, requests,
  downloads).
* Every `fetch(..).then(..)` chain is one transition that takes the settled
  outcome of the promise (`Except.error` for a rejection, `Except.ok` for the
  parsed response) as an argument; no other handler runs in between.
* The `setTimeout` that fades the dashboard in and the `event` argument of
  `deleteFile` carry no state of their own and are left out.
-/

namespace Transciber

/-! ## Values and truthiness -/

/-- The reason of a rejected promise, or a thrown `Error`. -/
structure JSError where
  name : String
  message : String
deriving DecidableEq, Repr

/-- String conversion of an error, as `Error.prototype.toString`. -/
def JSError.toStr (e : JSError) : String :=
  if e.name = "" then e.message
  else if e.message = "" then e.name
  else e.name ++ ": " ++ e.message

/-- Truthiness of a possibly absent string: absent and `""` are falsy. -/
def truthyStr : Option String → Bool
  | some s => decide (s ≠ "")
  | none => false

/-- The expression `s || d` for a possibly absent string `s`. -/
def orStr (s : Option String) (d : String) : String :=
  match s with
  | some v => if v ≠ "" then v else d
  | none => d

/-! ## Numbers -/

/-- Rounding to the nearest integer, a tie going to the even one. -/
def roundHalfEven (y : ℚ) : ℤ :=
  if y - ⌊y⌋ < 1 / 2 then ⌊y⌋
  else if 1 / 2 < y - ⌊y⌋ then ⌊y⌋ + 1
  else if ⌊y⌋ % 2 = 0 then ⌊y⌋ else ⌊y⌋ + 1

/-- The exponent of the binary64 grid around `x`: consecutive values near `x`
are `2 ^ binadeExp x` apart (53 significant bits, smallest exponent `-1074`). -/
def binadeExp (x : ℚ) : ℤ :=
  if x = 0 then -1074 else max (Int.log 2 |x| - 52) (-1074)

/-- Rounding to binary64: the nearest value of the grid around `x`, a tie
going to the even significand. This is what `JSON.parse` does to a number
literal and what `/` and `*` do to their exact result. -/
def fl (x : ℚ) : ℚ := (roundHalfEven (x / 2 ^ binadeExp x) : ℚ) * 2 ^ binadeExp x

/-- The function `Math.floor`. -/
def mathFloor (x : ℚ) : ℤ := ⌊x⌋

/-- Truncation toward zero, the integer quotient behind the `%` operator. -/
def truncQ (x : ℚ) : ℤ := if 0 ≤ x then ⌊x⌋ else ⌈x⌉

/-- The operator `a % b`: the exact remainder, with the sign of the dividend. -/
def jsRem (a b : ℚ) : ℚ := a - b * (truncQ (a / b) : ℚ)

/-- Number of decimal digits of a natural number. -/
def decimalLength (n : ℕ) : ℕ := (Nat.repr n).length

/-- The digit strings of `k` digits that denote the binary64 value `x`:
triples `(s, n, v)` with `10^(k-1) ≤ s < 10^k`, `v = s * 10^(n-k)` and `v`
rounding to `x`. -/
def digitCandidates (x k : ℕ) : List (ℕ × ℕ × ℕ) :=
  let D := decimalLength x
  ([(x / 10 ^ (D - k), D), (x / 10 ^ (D - k) + 1, D), (x / 10 ^ (D + 1 - k) + 1, D + 1)].map
    fun c => (c.1, c.2, c.1 * 10 ^ (c.2 - k))).filter
    fun c => decide (10 ^ (k - 1) ≤ c.1 ∧ c.1 < 10 ^ k ∧ fl (c.2.2 : ℚ) = (x : ℚ))

/-- Of the candidates, the one closest to `x`, an even `s` winning a tie. -/
def closestCandidate (x : ℕ) (cs : List (ℕ × ℕ × ℕ)) : Option (ℕ × ℕ × ℕ) :=
  cs.foldl
    (fun best c =>
      match best with
      | none => some c
      | some b =>
        let dc := Int.natAbs ((c.2.2 : ℤ) - x)
        let db := Int.natAbs ((b.2.2 : ℤ) - x)
        if dc < db ∨ (dc = db ∧ c.1 % 2 = 0) then some c else some b)
    none

/-- The shortest digits `s` and the position `n` of the decimal point for `x`,
as `Number::toString` chooses them; the plain digits of `x` when no shorter
string denotes it. -/
def shortestDigits (x : ℕ) : ℕ × ℕ :=
  match (List.range (decimalLength x)).findSome?
      (fun i => closestCandidate x (digitCandidates x (i + 1))) with
  | some c => (c.1, c.2.1)
  | none => (x, decimalLength x)

/-- The string of a non-negative integer-valued number: plain decimal digits
below `10^21`, exponent form from there on. -/
def natToString (x : ℕ) : String :=
  if x < 10 ^ 21 then Nat.repr x
  else
    let sn := shortestDigits x
    match (Nat.repr sn.1).data with
    | [] => ""
    | [c] => String.mk [c] ++ "e+" ++ Nat.repr (sn.2 - 1)
    | c :: rest => String.mk [c] ++ "." ++ String.mk rest ++ "e+" ++ Nat.repr (sn.2 - 1)

/-- The string of an integer-valued number. -/
def intToString (z : ℤ) : String :=
  if z < 0 then "-" ++ natToString z.natAbs else natToString z.natAbs


/-- Left-pads a digit string with zeros up to the given length. -/
def padZeros (len : ℕ) (s : String) : String :=
  String.mk (List.replicate (len - s.length) '0') ++ s

/-- The method `x.toFixed(f)`: `x` rounded to `f` decimals, a tie going to the
larger magnitude; from `10^21` on, the string of the number itself. -/
def toFixed (x : ℚ) (f : ℕ) : String :=
  let sign := if x < 0 then "-" else ""
  let a := if x < 0 then -x else x
  if (10 : ℚ) ^ 21 ≤ a then sign ++ natToString ⌊a⌋.toNat
  else
    let n := (⌊a * (10 : ℚ) ^ f + 1 / 2⌋).toNat
    let m := Nat.repr n
    if f = 0 then sign ++ m
    else
      let m := padZeros (f + 1) m
      let k := m.length
      sign ++ String.mk (m.data.take (k - f)) ++ "." ++ String.mk (m.data.drop (k - f))

/-! ## Data model -/

/-- The `sonic_dna` triple of a record, each number as the JSON text writes
it. -/
structure SonicDNA where
  energy : ℚ
  pace : ℚ
  clarity : ℚ
deriving DecidableEq, Repr

/-- A transcription record as the backend sends it; every field may be
missing, and a number field holds the number as the JSON text writes it. -/
structure Record where
  filename : Option String
  audio_url : Option String
  duration : Option ℚ
  transcript : Option String
  summary : Option String
  word_count : Option ℕ
  confidence_score : Option ℚ
  key_points : Option (List String)
  keywords : Option (List String)
  sonic_dna : Option SonicDNA
deriving DecidableEq, Repr

/-- A record none of whose fields is present. -/
def Record.empty : Record :=
  { filename := none, audio_url := none, duration := none, transcript := none,
    summary := none, word_count := none, confidence_score := none,
    key_points := none, keywords := none, sonic_dna := none }

/-- An element of the history list: a record, or a bare filename. -/
inductive Item where
  | bare (name : String)
  | record (r : Record)
deriving DecidableEq, Repr

/-- Property access on an item: a bare string has none of the record fields. -/
def Item.fields : Item → Record
  | .bare _ => Record.empty
  | .record r => r

/-- Truthiness of an item: an object is truthy, a string unless it is empty. -/
def Item.truthy : Item → Bool
  | .bare s => decide (s ≠ "")
  | .record _ => true

/-- The expression `f.filename || f` when it yields a string; `none` when it
yields the record object itself. -/
def Item.nameValue : Item → Option String
  | .bare s => some s
  | .record r =>
    match r.filename with
    | some f => if f ≠ "" then some f else none
    | none => none

/-- The expression `item.filename || item` converted to a string, as the
template literal of `loadHistory` does. -/
def Item.fileName (item : Item) : String :=
  match item.nameValue with
  | some s => s
  | none => "[object Object]"

/-- The radar chart handed to the charting library. -/
structure RadarChart where
  labels : List String
  data : List ℚ
  ticksMin : ℚ
  ticksMax : ℚ
deriving DecidableEq, Repr

/-- A child node of the history container. -/
inductive Node where
  | html (raw : String)
  | div (className : String) (innerHTML : String)
deriving DecidableEq, Repr

/-- A request body. -/
inductive Body where
  | none
  | formData (field : String) (file : String)
  | translateJson (transcript : Option String) (summary : Option String)
      (target_lang : String)
  | pdfJson (title : String) (transcript : String) (summary : String)
deriving DecidableEq, Repr

/-- A call of `fetch`. -/
structure Request where
  method : String
  url : String
  body : Body
deriving DecidableEq, Repr

/-- The parsed response of `POST /upload`. -/
structure UploadResponse where
  error : Option String
  record : Record
deriving DecidableEq, Repr

/-- The parsed response of `POST /translate`. -/
structure TranslateResponse where
  translated_transcript : Option String
  translated_summary : Option String
  error : Option String
deriving DecidableEq, Repr

/-- The module variables, the element properties the script writes, and the
effects it has caused so far. -/
structure State where
  currentData : Option Item
  historyData : Option (List Item)
  dnaChart : Option RadarChart
  uploadStatusHidden : Bool
  uploadBtnDisabled : Bool
  uploadBtnHTML : String
  uploadSectionHidden : Bool
  dashboardSectionHidden : Bool
  filenameDisplay : String
  metadataDisplay : String
  transcriptContent : String
  summaryContent : String
  insightWordCount : String
  insightConfidence : String
  insightBullets : List String
  keywordsContainer : List String
  audioSrc : Option String
  audioPaused : Bool
  playPauseBtnHTML : String
  progressBarWidth : String
  seekSliderValue : ℚ
  durationTime : String
  historyContainer : List Node
  bodyCursor : String
  dashboardScrolls : ℕ
  alerts : List String
  confirms : List String
  requests : List Request
  downloads : List String
deriving DecidableEq, Repr

/-- The page as served: nothing loaded, nothing shown. -/
def State.init : State :=
  { currentData := none, historyData := none, dnaChart := none,
    uploadStatusHidden := true, uploadBtnDisabled := false,
    uploadBtnHTML := "Start Transcribing", uploadSectionHidden := false,
    dashboardSectionHidden := true, filenameDisplay := "", metadataDisplay := "",
    transcriptContent := "", summaryContent := "", insightWordCount := "",
    insightConfidence := "", insightBullets := [], keywordsContainer := [],
    audioSrc := none, audioPaused := true, playPauseBtnHTML := "",
    progressBarWidth := "0%", seekSliderValue := 0, durationTime := "",
    historyContainer := [], bodyCursor := "", dashboardScrolls := 0,
    alerts := [], confirms := [], requests := [], downloads := [] }

/-- The call `alert(msg)`. -/
def State.alert (st : State) (msg : String) : State :=
  { st with alerts := st.alerts ++ [msg] }

/-- The call `fetch(url, ..)`. -/
def State.fetch (st : State) (r : Request) : State :=
  { st with requests := st.requests ++ [r] }

/-- The test `!currentData` negated: a truthy value is held as current. -/
def State.hasCurrent (st : State) : Bool :=
  match st.currentData with
  | some it => it.truthy
  | none => false

/-- Property access on `currentData`. -/
def State.current (st : State) : Record :=
  match st.currentData with
  | some it => it.fields
  | none => Record.empty

/-! ## Formatting and the chart -/

/-- The function `formatTime`. -/
def formatTime (s : ℚ) : String :=
  let min := mathFloor (fl (s / 60))
  let sec := mathFloor (jsRem s 60)
  intToString min ++ ":" ++ (if sec < 10 then "0" ++ intToString sec else intToString sec)

/-- The constant `paceNorm` of `renderRadarChart`. -/
def paceNorm (pace : ℚ) : ℚ := min (fl (fl (pace / 200) * 100)) 100

/-- The function `renderRadarChart`: the previous chart is destroyed and a new
one is created. -/
def renderRadarChart (st : State) (dna : Option SonicDNA) : State :=
  let energy := match dna with | some d => fl d.energy | none => 50
  let pace := match dna with | some d => fl d.pace | none => 50
  let clarity := match dna with | some d => fl d.clarity | none => 50
  { st with
    dnaChart := some
      { labels := ["Energy", "Pace", "Clarity"]
        data := [energy, paceNorm pace, clarity]
        ticksMin := 0
        ticksMax := 100 } }

/-! ## Rendering a record -/

/-- The audio source `renderDashboard` settles on: `audio_url`, or a path
built from the filename when the record lacks one. -/
def resolveAudioSrc (d : Record) : Option String :=
  match d.filename with
  | some f =>
    if !truthyStr d.audio_url && decide (f ≠ "") then some ("/uploads/" ++ f)
    else d.audio_url
  | none => d.audio_url

/-- The text `renderDashboard` puts in `duration-time`. -/
def durationText (duration : Option ℚ) : String :=
  match duration with
  | some t => if fl t ≠ 0 then formatTime (fl t) else "--:--"
  | none => "--:--"

/-- The text `renderDashboard` leaves in `metadata-display`. -/
def metadataText (duration : Option ℚ) : String :=
  match duration with
  | some t =>
    if fl t ≠ 0 then "PROCESSED • " ++ formatTime (fl t) else "PROCESSED • UNKNOWN DURATION"
  | none => "PROCESSED • UNKNOWN DURATION"

/-- The text `renderDashboard` puts in `insight-confidence`, before the `%`:
the product `confidence_score * 100` to one decimal, `Infinity` when the
product overflows. -/
def confidenceText (score : Option ℚ) : String :=
  match score with
  | some t =>
    if fl t ≠ 0 then
      let p := fl (fl t * 100)
      if (2 : ℚ) ^ 1024 ≤ |p| then (if p < 0 then "-Infinity" else "Infinity")
      else toFixed p 1
    else "95"
  | none => "95"

/-- The text `renderDashboard` puts in `insight-word-count`. -/
def wordCountText (count : Option ℕ) : String :=
  match count with
  | some n => natToString ⌊fl (n : ℚ)⌋.toNat
  | none => "0"

/-- The function `renderDashboard`. The first write to `metadata-display`
(the `toFixed(2)` text) is overwritten by the duration logic on every path, so
only the later write is kept. -/
def renderDashboard (st : State) (data : Item) : State :=
  let d := data.fields
  let bullets :=
    match d.key_points with
    | some ps => ps.map fun point => "<span class=\"text-[#00f2ff] mt-1\">•</span> " ++ point
    | none => []
  let kws :=
    match d.keywords with
    | some ks => ks
    | none => []
  let src := resolveAudioSrc d
  let st1 : State :=
    { st with
      currentData := some data
      uploadSectionHidden := true
      dashboardSectionHidden := false
      filenameDisplay := orStr d.filename "Audio File"
      transcriptContent := orStr d.transcript "No transcript available."
      summaryContent := orStr d.summary "No summary available."
      insightWordCount := wordCountText d.word_count
      insightConfidence := confidenceText d.confidence_score ++ "%"
      insightBullets := bullets
      keywordsContainer := kws
      audioPaused := true
      playPauseBtnHTML :=
        "<span class=\"material-symbols-outlined font-black text-2xl\">play_arrow</span>"
      progressBarWidth := "0%"
      seekSliderValue := 0
      audioSrc := if truthyStr src then src else st.audioSrc
      durationTime := durationText d.duration
      metadataDisplay := metadataText d.duration }
  match d.sonic_dna with
  | some dna => renderRadarChart st1 (some dna)
  | none => st1

/-! ## The upload flow -/

/-- The function `resetUploadState`. -/
def resetUploadState (st : State) : State :=
  { st with
    uploadStatusHidden := true
    uploadBtnHTML := "Start Transcribing"
    uploadBtnDisabled := false }

/-- The markup of one history entry for the given file name. -/
def historyEntryHTML (fileName : String) : String :=
  "\n                <div class=\"flex items-center gap-3\" onclick=\"loadFromHistory('"
  ++ fileName ++
  "')\">\n                    <div class=\"w-8 h-8 rounded-lg bg-[#bc13fe]/20 flex items-center justify-center\">\n                        <span class=\"material-symbols-outlined text-[#bc13fe] text-xs\">graphic_eq</span>\n                    </div>\n                    <span class=\"text-sm font-bold text-slate-300 group-hover:text-white\">"
  ++ fileName ++
  "</span>\n                </div>\n                 <div class=\"flex gap-2\">\n                    <button class=\"text-xs text-[#00f2ff] hover:underline\" onclick=\"loadFromHistory('"
  ++ fileName ++
  "')\">Load</button>\n                    <button onclick=\"deleteFile('"
  ++ fileName ++
  "', event)\" class=\"text-slate-500 hover:text-red-500\">\n                        <span class=\"material-symbols-outlined text-sm\">delete</span>\n                    </button>\n                </div>\n            "

/-- The class list of a history entry. -/
def historyEntryClass : String :=
  "flex items-center justify-between p-3 hover:bg-white/5 rounded-xl cursor-pointer group transition-colors border-b border-white/5 last:border-0"

/-- The paragraph shown for an empty history. -/
def noUploadsHTML : String :=
  "<p class=\"text-slate-500 text-xs text-center italic\">No recent uploads found.</p>"

/-- The entry `loadHistory` appends for one item. -/
def historyEntry (item : Item) : Node :=
  Node.div historyEntryClass (historyEntryHTML item.fileName)

/-- The function `loadHistory`, given the settled outcome of `GET /history`.
The chain has no rejection handler: a rejected call changes nothing more. -/
def loadHistory (st : State) (outcome : Except JSError (List Item)) : State :=
  let st1 := st.fetch { method := "GET", url := "/history", body := Body.none }
  match outcome with
  | .error _ => st1
  | .ok files =>
    let st2 : State := { st1 with historyData := some files, historyContainer := [] }
    if files.length = 0 then
      { st2 with historyContainer := [Node.html noUploadsHTML] }
    else
      files.foldl
        (fun acc item => { acc with historyContainer := acc.historyContainer ++ [historyEntry item] })
        st2

/-- The function `uploadFile`, given the file name, the settled outcome of
`POST /upload` and, for the refresh that follows a success, that of
`GET /history`. -/
def uploadFile (st : State) (file : String) (outcome : Except JSError UploadResponse)
    (hist : Except JSError (List Item)) : State :=
  let st1 : State :=
    { st with
      uploadStatusHidden := false
      uploadBtnDisabled := true
      uploadBtnHTML :=
        "<span class=\"material-symbols-outlined animate-spin\">sync</span> AI Processing..." }
  let st2 := st1.fetch { method := "POST", url := "/upload", body := Body.formData "audio" file }
  let onCatch (msg : String) : State :=
    resetUploadState (st2.alert ("Upload Failed: " ++ msg))
  let st3 : State :=
    match outcome with
    | .error e => onCatch e.message
    | .ok data =>
      let onData : State := loadHistory (renderDashboard st2 (Item.record data.record)) hist
      match data.error with
      | some msg => if msg ≠ "" then onCatch msg else onData
      | none => onData
  { st3 with bodyCursor := "default" }

/-! ## Translation, history and download -/

/-- The two writes of the translated texts: each happens only when the
response carries a non-empty text. -/
def showTranslation (st : State) (data : TranslateResponse) : State :=
  let a : State :=
    match data.translated_transcript with
    | some t => if t ≠ "" then { st with transcriptContent := t } else st
    | none => st
  match data.translated_summary with
  | some t => if t ≠ "" then { a with summaryContent := t } else a
  | none => a

/-- The alert `translateContent` shows for a parsed response. -/
def translationAlert (data : TranslateResponse) : String :=
  match data.error with
  | some msg =>
    if msg ≠ "" then "Translation error: " ++ msg
    else "Translation completed for Transcript and Summary."
  | none => "Translation completed for Transcript and Summary."

/-- The function `translateContent`, given the settled outcome of
`POST /translate`. -/
def translateContent (st : State) (lang : String)
    (outcome : Except JSError TranslateResponse) : State :=
  if !st.hasCurrent then st
  else
    let st1 : State := { st with bodyCursor := "wait" }
    let st2 := st1.fetch
      { method := "POST", url := "/translate",
        body := Body.translateJson st.current.transcript st.current.summary lang }
    let st3 : State :=
      match outcome with
      | .error err => st2.alert ("Translation failed: " ++ err.toStr)
      | .ok data => (showTranslation st2 data).alert (translationAlert data)
    { st3 with bodyCursor := "default" }

/-- The function `loadFromHistory`; `none` is the `ReferenceError` raised when
`historyData` has never been assigned. -/
def loadFromHistory (st : State) (filename : String) : Option State :=
  match st.historyData with
  | none => none
  | some files =>
    match files.find? (fun f => decide (f.nameValue = some filename)) with
    | some item =>
      if item.truthy then
        let st1 := renderDashboard st item
        some { st1 with dashboardScrolls := st1.dashboardScrolls + 1 }
      else some (st.alert "File data not found in local history.")
    | none => some (st.alert "File data not found in local history.")

/-- The function `deleteFile`, given the answer to the confirmation prompt and
the settled outcomes of `DELETE /delete/<filename>` and of the `GET /history`
that follows a fulfilled call. -/
def deleteFile (st : State) (filename : String) (confirmed : Bool)
    (outcome : Except JSError Unit) (hist : Except JSError (List Item)) : State :=
  let st1 : State := { st with confirms := st.confirms ++ ["Delete " ++ filename ++ "?"] }
  if !confirmed then st1
  else
    let st2 := st1.fetch { method := "DELETE", url := "/delete/" ++ filename, body := Body.none }
    match outcome with
    | .error _ => st2
    | .ok _ => loadHistory st2 hist

/-- The function `downloadPDF`, given the settled outcome of
`POST /download_pdf` (the blob itself is not inspected). -/
def downloadPDF (st : State) (outcome : Except JSError Unit) : State :=
  if !st.hasCurrent then st
  else
    let st1 := st.fetch
      { method := "POST", url := "/download_pdf",
        body := Body.pdfJson (orStr st.current.filename "Transcript")
          st.transcriptContent st.summaryContent }
    match outcome with
    | .error _ => st1
    | .ok _ =>
      { st1 with
        downloads := st1.downloads ++ [orStr st1.current.filename "transcript" ++ "_report.pdf"] }

/-! ## Reference renderings used to state the properties -/

/-- Two decimal digits of a number below 100, zero-padded. -/
def twoDigits (n : ℕ) : String :=
  String.mk [Nat.digitChar (n / 10), Nat.digitChar (n % 10)]

/-- The whole seconds of `d` past the last full minute: `⌊d mod 60⌋`. -/
def secondsPart (d : ℚ) : ℤ := ⌊d - 60 * ((⌊d / 60⌋ : ℤ) : ℚ)⌋

/-- The name of a history item in the words of the specification: its
filename field, or the item itself when it is a bare filename. -/
def Item.specName : Item → Option String
  | .bare s => some s
  | .record r => r.filename

/-- The request `translateContent` sends for a record and a language. -/
def translateRequest (r : Record) (lang : String) : Request :=
  { method := "POST", url := "/translate",
    body := Body.translateJson r.transcript r.summary lang }

/-- Successive translations, each with its language and settled outcome. -/
def translateAll (st : State) (steps : List (String × Except JSError TranslateResponse)) :
    State :=
  steps.foldl (fun acc step => translateContent acc step.1 step.2) st

/-! ## Properties -/

/-! ### Rounding to binary64 -/

theorem roundHalfEven_intCast (n : ℤ) : roundHalfEven (n : ℚ) = n := by
  simp [roundHalfEven]

theorem floor_le_roundHalfEven (y : ℚ) : ⌊y⌋ ≤ roundHalfEven y := by
  unfold roundHalfEven
  split_ifs <;> omega

theorem roundHalfEven_le_floor_add_one (y : ℚ) : roundHalfEven y ≤ ⌊y⌋ + 1 := by
  unfold roundHalfEven
  split_ifs <;> omega

theorem abs_roundHalfEven_sub_le (y : ℚ) : |(roundHalfEven y : ℚ) - y| ≤ 1 / 2 := by
  have h1 : (⌊y⌋ : ℚ) ≤ y := Int.floor_le y
  have h2 : y < (⌊y⌋ : ℚ) + 1 := Int.lt_floor_add_one y
  unfold roundHalfEven
  rw [abs_le]
  split_ifs with ha hb hc <;> push_cast <;> constructor <;> linarith

theorem roundHalfEven_mono {y z : ℚ} (h : y ≤ z) : roundHalfEven y ≤ roundHalfEven z := by
  have hf : ⌊y⌋ ≤ ⌊z⌋ := Int.floor_mono h
  rcases lt_or_eq_of_le hf with hlt | heq
  · calc roundHalfEven y ≤ ⌊y⌋ + 1 := roundHalfEven_le_floor_add_one y
      _ ≤ ⌊z⌋ := hlt
      _ ≤ roundHalfEven z := floor_le_roundHalfEven z
  · unfold roundHalfEven
    rw [heq]
    split_ifs <;> first | omega | (exfalso; linarith)

theorem roundHalfEven_le_of_le_int {y : ℚ} {n : ℤ} (h : y ≤ n) : roundHalfEven y ≤ n := by
  have := roundHalfEven_mono h
  rwa [roundHalfEven_intCast] at this

theorem int_le_roundHalfEven {y : ℚ} {n : ℤ} (h : (n : ℚ) ≤ y) : n ≤ roundHalfEven y := by
  have := roundHalfEven_mono h
  rwa [roundHalfEven_intCast] at this

theorem roundHalfEven_lt_of_lt {y : ℚ} {n : ℤ} (h : y < (n : ℚ) - 1 / 2) :
    roundHalfEven y < n := by
  have h1 := abs_roundHalfEven_sub_le y
  rw [abs_le] at h1
  have : (roundHalfEven y : ℚ) < n := by linarith [h1.2]
  exact_mod_cast this

theorem roundHalfEven_neg (y : ℚ) : roundHalfEven (-y) = -roundHalfEven y := by
  have h1 := Int.floor_le y
  have h2 := Int.lt_floor_add_one y
  have h3 := Int.floor_le (-y)
  have h4 := Int.lt_floor_add_one (-y)
  have hg : ⌊-y⌋ = -⌊y⌋ ∨ ⌊-y⌋ = -⌊y⌋ - 1 := by
    have a : (⌊y⌋ : ℚ) ≤ -(⌊-y⌋ : ℚ) := by linarith
    have b : -(⌊-y⌋ : ℚ) < ⌊y⌋ + 2 := by linarith
    have a' : ⌊y⌋ ≤ -⌊-y⌋ := by exact_mod_cast a
    have b' : -⌊-y⌋ < ⌊y⌋ + 2 := by exact_mod_cast b
    omega
  unfold roundHalfEven
  rcases hg with hg | hg <;> rw [hg] at h3 h4 ⊢ <;> push_cast at h3 h4 ⊢ <;>
    split_ifs <;> first | omega | (exfalso; linarith)

theorem two_zpow_pos (e : ℤ) : (0 : ℚ) < 2 ^ e := zpow_pos (by norm_num) e

theorem two_zpow_log_le {r : ℚ} (hr : 0 < r) : (2 : ℚ) ^ Int.log 2 r ≤ r := by
  have := Int.zpow_log_le_self (b := 2) (by norm_num) hr
  simpa using this

theorem lt_two_zpow_log_succ (r : ℚ) : r < (2 : ℚ) ^ (Int.log 2 r + 1) := by
  have := Int.lt_zpow_succ_log_self (b := 2) (by norm_num) r
  simpa using this

theorem log_lt_of_lt_zpow {r : ℚ} {n : ℤ} (hr : 0 < r) (h : r < 2 ^ n) : Int.log 2 r < n := by
  have := (Int.lt_zpow_iff_log_lt (b := 2) (by norm_num) (x := n) hr).mp (by simpa using h)
  exact this

theorem le_log_of_zpow_le {r : ℚ} {n : ℤ} (hr : 0 < r) (h : 2 ^ n ≤ r) : n ≤ Int.log 2 r := by
  have := (Int.zpow_le_iff_le_log (b := 2) (by norm_num) (x := n) hr).mp (by simpa using h)
  exact this

theorem le_binadeExp (x : ℚ) : -1074 ≤ binadeExp x := by
  unfold binadeExp
  split_ifs
  · exact le_rfl
  · exact le_max_right _ _

theorem binadeExp_neg (x : ℚ) : binadeExp (-x) = binadeExp x := by
  simp [binadeExp]

theorem binadeExp_le_of_lt {x : ℚ} {n : ℤ} (hn : -1074 ≤ n) (h : |x| < 2 ^ (n + 53)) :
    binadeExp x ≤ n := by
  unfold binadeExp
  split_ifs with h0
  · exact hn
  · have hx : 0 < |x| := abs_pos.mpr h0
    have := log_lt_of_lt_zpow hx h
    exact max_le (by omega) hn

theorem abs_lt_two_zpow_binadeExp (x : ℚ) : |x| < 2 ^ (binadeExp x + 53) := by
  unfold binadeExp
  split_ifs with h0
  · rw [h0, abs_zero]
    exact two_zpow_pos _
  · have h1 := lt_two_zpow_log_succ |x|
    refine lt_of_lt_of_le h1 (zpow_le_zpow_right₀ (by norm_num) ?_)
    have := le_max_left (Int.log 2 |x| - 52) (-1074)
    omega

theorem binadeExp_mono {x y : ℚ} (h : |x| ≤ |y|) : binadeExp x ≤ binadeExp y := by
  by_cases hx : x = 0
  · simp only [binadeExp, hx, if_true]
    exact le_binadeExp y
  · have hxp : 0 < |x| := abs_pos.mpr hx
    have hy : y ≠ 0 := by
      intro hy
      rw [hy, abs_zero] at h
      linarith
    simp only [binadeExp, hx, hy, if_false]
    exact max_le_max (by linarith [Int.log_mono_right (b := 2) hxp h]) le_rfl

theorem binadeExp_of_normal {x : ℚ} {L : ℤ} (hL : -1022 ≤ L) (h1 : 2 ^ L ≤ |x|)
    (h2 : |x| < 2 ^ (L + 1)) : binadeExp x = L - 52 := by
  have hx : 0 < |x| := lt_of_lt_of_le (two_zpow_pos L) h1
  have h0 : x ≠ 0 := abs_pos.mp hx
  have ha := le_log_of_zpow_le hx h1
  have hb := log_lt_of_lt_zpow hx h2
  have : Int.log 2 |x| = L := by omega
  simp only [binadeExp, h0, if_false, this]
  exact max_eq_left (by omega)

theorem fl_neg (x : ℚ) : fl (-x) = -fl x := by
  unfold fl
  rw [binadeExp_neg, neg_div, roundHalfEven_neg]
  push_cast
  ring

theorem fl_zero : fl 0 = 0 := by
  simp [fl, roundHalfEven]

theorem fl_le_of_le_grid {x : ℚ} {n e : ℤ} (he : binadeExp x ≤ e) (h : x ≤ n * 2 ^ e) :
    fl x ≤ n * 2 ^ e := by
  obtain ⟨k, hk⟩ := Int.eq_ofNat_of_zero_le (sub_nonneg.mpr he)
  have hpos := two_zpow_pos (binadeExp x)
  have hsplit : (2 : ℚ) ^ e = 2 ^ k * 2 ^ binadeExp x := by
    have : e = (k : ℤ) + binadeExp x := by omega
    rw [this, zpow_add₀ (by norm_num), zpow_natCast]
  have hgrid : (n : ℚ) * 2 ^ e = ((n * 2 ^ k : ℤ) : ℚ) * 2 ^ binadeExp x := by
    rw [hsplit]
    push_cast
    ring
  rw [hgrid] at h ⊢
  unfold fl
  apply mul_le_mul_of_nonneg_right _ hpos.le
  have : x / 2 ^ binadeExp x ≤ ((n * 2 ^ k : ℤ) : ℚ) := by
    rw [div_le_iff₀ hpos]
    exact h
  exact_mod_cast roundHalfEven_le_of_le_int this

theorem le_fl_of_grid_le {x : ℚ} {n e : ℤ} (he : binadeExp x ≤ e) (h : (n : ℚ) * 2 ^ e ≤ x) :
    (n : ℚ) * 2 ^ e ≤ fl x := by
  have h1 : fl (-x) ≤ ((-n : ℤ) : ℚ) * 2 ^ e := by
    apply fl_le_of_le_grid (by rwa [binadeExp_neg])
    push_cast
    linarith
  rw [fl_neg] at h1
  push_cast at h1
  linarith

theorem fl_eq_self_of_grid {n e : ℤ} (he : -1074 ≤ e) (hn : |(n : ℚ)| < 2 ^ 53) :
    fl ((n : ℚ) * 2 ^ e) = n * 2 ^ e := by
  have hb : binadeExp ((n : ℚ) * 2 ^ e) ≤ e := by
    apply binadeExp_le_of_lt he
    rw [abs_mul, abs_of_pos (two_zpow_pos e), add_comm, zpow_add₀ (by norm_num)]
    have := two_zpow_pos e
    have h53 : (2 : ℚ) ^ (53 : ℤ) = 2 ^ 53 := by norm_num
    rw [h53, mul_comm (2 ^ 53 : ℚ)]
    rw [mul_comm]
    exact mul_lt_mul_of_pos_left hn this
  exact le_antisymm (fl_le_of_le_grid hb le_rfl) (le_fl_of_grid_le hb le_rfl)

theorem fl_nonneg {x : ℚ} (h : 0 ≤ x) : 0 ≤ fl x := by
  have := le_fl_of_grid_le (x := x) (n := 0) (e := binadeExp x) le_rfl (by simpa using h)
  simpa using this

theorem binadeExp_eq_log_of_gt {y : ℚ} (h : -1074 < binadeExp y) :
    y ≠ 0 ∧ binadeExp y = Int.log 2 |y| - 52 := by
  unfold binadeExp at h ⊢
  split_ifs at h ⊢ with h0
  · omega
  · refine ⟨h0, ?_⟩
    rcases max_cases (Int.log 2 |y| - 52) (-1074) with ⟨h1, _⟩ | ⟨h1, _⟩
    · exact h1
    · rw [h1] at h
      omega

theorem fl_mono_of_nonneg {x y : ℚ} (hx : 0 ≤ x) (h : x ≤ y) : fl x ≤ fl y := by
  have hy : 0 ≤ y := le_trans hx h
  have hab : |x| ≤ |y| := by rwa [abs_of_nonneg hx, abs_of_nonneg hy]
  have he := binadeExp_mono hab
  rcases lt_or_eq_of_le he with hlt | heq
  · have hgt : -1074 < binadeExp y := lt_of_le_of_lt (le_binadeExp x) hlt
    obtain ⟨hy0, hlog⟩ := binadeExp_eq_log_of_gt hgt
    have hypos : 0 < |y| := abs_pos.mpr hy0
    have hg : ((2 ^ 52 : ℤ) : ℚ) * 2 ^ binadeExp y = 2 ^ Int.log 2 |y| := by
      have : Int.log 2 |y| = 52 + binadeExp y := by omega
      rw [this, zpow_add₀ (by norm_num)]
      norm_num
    have h1 : ((2 ^ 52 : ℤ) : ℚ) * 2 ^ binadeExp y ≤ y := by
      rw [hg]
      have := two_zpow_log_le hypos
      exact le_trans this (le_of_eq (abs_of_nonneg hy))
    have h2 : x ≤ ((2 ^ 52 : ℤ) : ℚ) * 2 ^ binadeExp y := by
      have hxlt := abs_lt_two_zpow_binadeExp x
      rw [abs_of_nonneg hx] at hxlt
      have : (2 : ℚ) ^ (binadeExp x + 53) ≤ 2 ^ Int.log 2 |y| :=
        zpow_le_zpow_right₀ (by norm_num) (by omega)
      rw [hg]
      linarith
    exact le_trans (fl_le_of_le_grid he h2) (le_fl_of_grid_le le_rfl h1)
  · unfold fl
    rw [heq]
    have hpos := two_zpow_pos (binadeExp y)
    apply mul_le_mul_of_nonneg_right _ hpos.le
    have : x / 2 ^ binadeExp y ≤ y / 2 ^ binadeExp y := div_le_div_of_nonneg_right h hpos.le
    exact_mod_cast roundHalfEven_mono this

theorem fl_mono {x y : ℚ} (h : x ≤ y) : fl x ≤ fl y := by
  rcases le_total 0 x with hx | hx
  · exact fl_mono_of_nonneg hx h
  · rcases le_total 0 y with hy | hy
    · have h1 : fl x ≤ 0 := by
        have := fl_nonneg (x := -x) (by linarith)
        rw [fl_neg] at this
        linarith
      exact le_trans h1 (fl_nonneg hy)
    · have := fl_mono_of_nonneg (x := -y) (y := -x) (by linarith) (by linarith)
      rw [fl_neg, fl_neg] at this
      linarith

theorem abs_fl_sub_le (x : ℚ) : |fl x - x| ≤ 2 ^ binadeExp x / 2 := by
  have hpos := two_zpow_pos (binadeExp x)
  have h := abs_roundHalfEven_sub_le (x / 2 ^ binadeExp x)
  have : fl x - x = ((roundHalfEven (x / 2 ^ binadeExp x) : ℚ) - x / 2 ^ binadeExp x)
      * 2 ^ binadeExp x := by
    unfold fl
    field_simp
  rw [this, abs_mul, abs_of_pos hpos]
  calc |(roundHalfEven (x / 2 ^ binadeExp x) : ℚ) - x / 2 ^ binadeExp x| * 2 ^ binadeExp x
      ≤ 1 / 2 * 2 ^ binadeExp x := mul_le_mul_of_nonneg_right h hpos.le
    _ = 2 ^ binadeExp x / 2 := by ring

theorem fl_eq_of_binade {x : ℚ} {e : ℤ} (he : -1074 ≤ e) (h1 : 2 ^ (e + 52) ≤ |x|)
    (h2 : |x| < 2 ^ (e + 53)) : fl x = (roundHalfEven (x / 2 ^ e) : ℚ) * 2 ^ e := by
  have : binadeExp x = e := by
    have := binadeExp_of_normal (x := x) (L := e + 52) (by omega) h1
      (by rwa [show e + 52 + 1 = e + 53 by ring])
    omega
  unfold fl
  rw [this]

theorem fl_fl (x : ℚ) : fl (fl x) = fl x := by
  have hpos := two_zpow_pos (binadeExp x)
  have hlt := abs_lt_two_zpow_binadeExp x
  have hsplit : (2 : ℚ) ^ (binadeExp x + 53) = 2 ^ 53 * 2 ^ binadeExp x := by
    rw [add_comm, zpow_add₀ (by norm_num)]
    norm_num
  rw [hsplit] at hlt
  have hq : |x / 2 ^ binadeExp x| < 2 ^ 53 := by
    rw [abs_div, abs_of_pos hpos, div_lt_iff₀ hpos]
    exact hlt
  rw [abs_lt] at hq
  have hR1 : roundHalfEven (x / 2 ^ binadeExp x) ≤ 2 ^ 53 :=
    roundHalfEven_le_of_le_int (by push_cast; linarith [hq.2])
  have hR2 : -(2 ^ 53) ≤ roundHalfEven (x / 2 ^ binadeExp x) :=
    int_le_roundHalfEven (by push_cast; linarith [hq.1])
  have he := le_binadeExp x
  have hstep : (2 : ℚ) ^ (binadeExp x + 1) = 2 * 2 ^ binadeExp x := by
    rw [add_comm, zpow_add₀ (by norm_num)]
    norm_num
  unfold fl
  generalize roundHalfEven (x / 2 ^ binadeExp x) = R at hR1 hR2 ⊢
  change fl ((R : ℚ) * 2 ^ binadeExp x) = (R : ℚ) * 2 ^ binadeExp x
  rcases lt_or_eq_of_le hR1 with h1 | h1
  · rcases lt_or_eq_of_le hR2 with h2 | h2
    · apply fl_eq_self_of_grid he
      rw [abs_lt]
      constructor
      · exact_mod_cast h2
      · exact_mod_cast h1
    · have : (R : ℚ) * 2 ^ binadeExp x = ((-(2 ^ 52) : ℤ) : ℚ) * 2 ^ (binadeExp x + 1) := by
        rw [← h2, hstep]
        push_cast
        ring
      rw [this]
      exact fl_eq_self_of_grid (by omega) (by norm_num)
  · have : (R : ℚ) * 2 ^ binadeExp x = ((2 ^ 52 : ℤ) : ℚ) * 2 ^ (binadeExp x + 1) := by
      rw [h1, hstep]
      push_cast
      ring
    rw [this]
    exact fl_eq_self_of_grid (by omega) (by norm_num)

theorem fl_intCast {n : ℤ} (h : |(n : ℚ)| < 2 ^ 53) : fl (n : ℚ) = n := by
  have := fl_eq_self_of_grid (n := n) (e := 0) (by norm_num) h
  simpa using this

theorem zpow_neg_natCast_mul (e : ℤ) (m : ℕ) (h : -e = m) : (2 : ℚ) ^ e * 2 ^ m = 1 := by
  have : e = -(m : ℤ) := by omega
  rw [this, zpow_neg, zpow_natCast]
  field_simp

theorem fl_div_sixty_lt (d : ℚ) (hd : fl d = d) (h0 : 0 < d) (h53 : d < 2 ^ 53) (k : ℤ)
    (hk : d / 60 < k) : fl (d / 60) < k := by
  have hq0 : 0 < d / 60 := by positivity
  have hk1 : (1 : ℚ) ≤ k := by
    have : (0 : ℚ) < k := lt_trans hq0 hk
    exact_mod_cast this
  rcases lt_or_le (d / 60) (1 / 2) with hsmall | hbig
  · have hhalf : fl (1 / 2) = 1 / 2 := by
      have := fl_eq_self_of_grid (n := 1) (e := -1) (by norm_num) (by norm_num)
      norm_num at this
      exact this
    have := fl_mono hsmall.le
    rw [hhalf] at this
    linarith
  · -- the quotient is a normal number
    have hqabs : |d / 60| = d / 60 := abs_of_pos hq0
    have hLq1 : (2 : ℚ) ^ Int.log 2 (d / 60) ≤ d / 60 := two_zpow_log_le hq0
    have hLq2 : d / 60 < (2 : ℚ) ^ (Int.log 2 (d / 60) + 1) := lt_two_zpow_log_succ _
    have hLqlo : -1 ≤ Int.log 2 (d / 60) :=
      le_log_of_zpow_le hq0 (by norm_num; linarith)
    have hLqhi : Int.log 2 (d / 60) < 53 :=
      log_lt_of_lt_zpow hq0 (by norm_num; linarith)
    have he : binadeExp (d / 60) = Int.log 2 (d / 60) - 52 := by
      apply binadeExp_of_normal (by omega)
      · rw [hqabs]; exact hLq1
      · rw [hqabs]; exact hLq2
    -- the grid of the dividend
    have hed0 : binadeExp d ≤ 0 := by
      apply binadeExp_le_of_lt (by norm_num)
      rw [abs_of_pos h0]
      norm_num
      linarith
    have hLd : Int.log 2 (d / 60) + 5 ≤ Int.log 2 |d| := by
      apply le_log_of_zpow_le (abs_pos.mpr h0.ne')
      rw [abs_of_pos h0, zpow_add₀ (by norm_num)]
      norm_num
      linarith
    have hed : binadeExp (d / 60) + 5 ≤ binadeExp d := by
      have : Int.log 2 |d| - 52 ≤ binadeExp d := by
        simp only [binadeExp, h0.ne', if_false]
        exact le_max_left _ _
      omega
    obtain ⟨md, hmd⟩ := Int.eq_ofNat_of_zero_le (neg_nonneg.mpr hed0)
    have hmul := zpow_neg_natCast_mul (binadeExp d) md hmd
    have hdpos := two_zpow_pos (binadeExp d)
    have hgap : (2 : ℚ) ^ binadeExp d ≤ 60 * k - d := by
      have hdgrid : d * 2 ^ md = (roundHalfEven (d / 2 ^ binadeExp d) : ℚ) := by
        have : d = (roundHalfEven (d / 2 ^ binadeExp d) : ℚ) * 2 ^ binadeExp d := by
          conv_lhs => rw [← hd]
          rfl
        calc d * 2 ^ md
            = (roundHalfEven (d / 2 ^ binadeExp d) : ℚ) * (2 ^ binadeExp d * 2 ^ md) := by
              conv_lhs => rw [this]
              ring
          _ = (roundHalfEven (d / 2 ^ binadeExp d) : ℚ) := by rw [hmul, mul_one]
      have hJ : (0 : ℚ) < ((60 * k * 2 ^ md - roundHalfEven (d / 2 ^ binadeExp d) : ℤ) : ℚ) := by
        push_cast
        rw [← hdgrid]
        have h2 : (0 : ℚ) < 2 ^ md := by positivity
        have : (60 : ℚ) * k * 2 ^ md - d * 2 ^ md = (60 * k - d) * 2 ^ md := by ring
        rw [this]
        apply mul_pos _ h2
        have := (div_lt_iff₀ (by norm_num : (0 : ℚ) < 60)).mp hk
        linarith
      have hJ1 : (1 : ℤ) ≤ 60 * k * 2 ^ md - roundHalfEven (d / 2 ^ binadeExp d) := by
        have : (0 : ℤ) < 60 * k * 2 ^ md - roundHalfEven (d / 2 ^ binadeExp d) := by
          exact_mod_cast hJ
        omega
      have hJ2 : (1 : ℚ) ≤ (60 * k - d) * 2 ^ md := by
        have : ((1 : ℤ) : ℚ) ≤ ((60 * k * 2 ^ md - roundHalfEven (d / 2 ^ binadeExp d) : ℤ) : ℚ) :=
          by exact_mod_cast hJ1
        push_cast at this
        rw [← hdgrid] at this
        linarith
      calc (2 : ℚ) ^ binadeExp d = 2 ^ binadeExp d * 1 := by ring
        _ ≤ 2 ^ binadeExp d * ((60 * k - d) * 2 ^ md) :=
            mul_le_mul_of_nonneg_left hJ2 hdpos.le
        _ = (60 * k - d) * (2 ^ binadeExp d * 2 ^ md) := by ring
        _ = 60 * k - d := by rw [hmul, mul_one]
    -- the grid of the quotient
    set e := binadeExp (d / 60) with hedef
    have he0 : e ≤ 0 := by omega
    have hepos := two_zpow_pos e
    have h32 : 32 * (2 : ℚ) ^ e ≤ 2 ^ binadeExp d := by
      have : (2 : ℚ) ^ (e + 5) ≤ 2 ^ binadeExp d := zpow_le_zpow_right₀ (by norm_num) hed
      rw [zpow_add₀ (by norm_num)] at this
      norm_num at this
      linarith
    obtain ⟨m, hm⟩ := Int.eq_ofNat_of_zero_le (neg_nonneg.mpr he0)
    have hmulq := zpow_neg_natCast_mul e m hm
    have hround : roundHalfEven (d / 60 / 2 ^ e) < k * 2 ^ m := by
      apply roundHalfEven_lt_of_lt
      push_cast
      rw [div_lt_iff₀ hepos]
      have : ((k : ℚ) * 2 ^ m - 1 / 2) * 2 ^ e = k * (2 ^ e * 2 ^ m) - 2 ^ e / 2 := by ring
      rw [this, hmulq, mul_one]
      linarith
    have hround' : (roundHalfEven (d / 60 / 2 ^ e) : ℚ) ≤ k * 2 ^ m - 1 := by
      have : roundHalfEven (d / 60 / 2 ^ e) ≤ k * 2 ^ m - 1 := by omega
      exact_mod_cast this
    have hfl : fl (d / 60) = (roundHalfEven (d / 60 / 2 ^ e) : ℚ) * 2 ^ e := rfl
    rw [hfl]
    calc (roundHalfEven (d / 60 / 2 ^ e) : ℚ) * 2 ^ e
        ≤ ((k : ℚ) * 2 ^ m - 1) * 2 ^ e := mul_le_mul_of_nonneg_right hround' hepos.le
      _ = k * (2 ^ e * 2 ^ m) - 2 ^ e := by ring
      _ = k - 2 ^ e := by rw [hmulq, mul_one]
      _ < k := by linarith

theorem floor_fl_div_sixty (d : ℚ) (hd : fl d = d) (h0 : 0 < d) (h53 : d < 2 ^ 53) :
    ⌊fl (d / 60)⌋ = ⌊d / 60⌋ := by
  have hq0 : 0 < d / 60 := by positivity
  have hf0 : 0 ≤ ⌊d / 60⌋ := Int.floor_nonneg.mpr hq0.le
  have hfle : (⌊d / 60⌋ : ℚ) ≤ d / 60 := Int.floor_le _
  rw [Int.floor_eq_iff]
  constructor
  · have hint : fl ((⌊d / 60⌋ : ℤ) : ℚ) = ⌊d / 60⌋ := by
      apply fl_intCast
      rw [abs_of_nonneg (by exact_mod_cast hf0)]
      linarith
    rw [← hint]
    exact fl_mono hfle
  · have := fl_div_sixty_lt d hd h0 h53 (⌊d / 60⌋ + 1) (by push_cast; exact Int.lt_floor_add_one _)
    push_cast at this
    exact this


/-! ### Time formatting -/

theorem intToString_natCast (n : ℕ) (h : n < 10 ^ 21) :
    intToString ((n : ℕ) : ℤ) = Nat.repr n := by
  have h0 : ¬ ((n : ℤ) < 0) := by omega
  simp only [intToString, h0, if_false, Int.natAbs_ofNat, natToString, h, if_true]

theorem pad_twoDigits (n : ℕ) (h : n < 60) :
    (if ((n : ℕ) : ℤ) < 10 then "0" ++ intToString ((n : ℕ) : ℤ)
      else intToString ((n : ℕ) : ℤ)) = twoDigits n := by
  rw [intToString_natCast n (lt_trans h (by norm_num))]
  interval_cases n <;> rfl

theorem jsRem_pos (d : ℚ) (h : 0 < d) : jsRem d 60 = d - 60 * ((⌊d / 60⌋ : ℤ) : ℚ) := by
  have h0 : (0 : ℚ) ≤ d / 60 := by positivity
  simp [jsRem, truncQ, h0]

theorem secondsPart_bounds (d : ℚ) : 0 ≤ secondsPart d ∧ secondsPart d < 60 := by
  have h1 : ((⌊d / 60⌋ : ℤ) : ℚ) ≤ d / 60 := Int.floor_le _
  have h2 : d / 60 < ((⌊d / 60⌋ : ℤ) : ℚ) + 1 := Int.lt_floor_add_one _
  unfold secondsPart
  constructor
  · apply Int.floor_nonneg.mpr
    linarith
  · apply Int.floor_lt.mpr
    push_cast
    linarith

theorem formatTime_pos (d : ℚ) (hd : fl d = d) (h0 : 0 < d) (h53 : d < 2 ^ 53) :
    formatTime d = Nat.repr ⌊d / 60⌋.toNat ++ ":" ++ twoDigits (secondsPart d).toNat := by
  have hm : 0 ≤ ⌊d / 60⌋ := Int.floor_nonneg.mpr (by positivity)
  obtain ⟨hs0, hs1⟩ := secondsPart_bounds d
  obtain ⟨m, hm'⟩ := Int.eq_ofNat_of_zero_le hm
  obtain ⟨n, hn'⟩ := Int.eq_ofNat_of_zero_le hs0
  have hn : n < 60 := by omega
  have hmlt : m < 10 ^ 21 := by
    have h1 : ((⌊d / 60⌋ : ℤ) : ℚ) ≤ d / 60 := Int.floor_le _
    rw [hm'] at h1
    have h2 : ((m : ℤ) : ℚ) < 10 ^ 21 := by
      have : d / 60 < 10 ^ 21 := by
        rw [div_lt_iff₀ (by norm_num)]
        norm_num at h53 ⊢
        linarith
      linarith
    exact_mod_cast h2
  unfold formatTime mathFloor
  rw [jsRem_pos d h0, floor_fl_div_sixty d hd h0 h53]
  unfold secondsPart at hn'
  unfold secondsPart
  rw [hn']
  simp only []
  rw [pad_twoDigits n hn, hm', intToString_natCast m hmlt]
  rfl

theorem renderDashboard_durationTime (st : State) (data : Item) :
    (renderDashboard st data).durationTime = durationText data.fields.duration := by
  simp only [renderDashboard]
  split <;> rfl

theorem fl_literal_125 : (125 : ℚ) ≤ fl 125.4 ∧ fl 125.4 ≤ 251 / 2 := by
  have h1 : fl ((125 : ℤ) : ℚ) = (125 : ℤ) := fl_intCast (by norm_num)
  have h2 : fl (251 / 2) = 251 / 2 := by
    have := fl_eq_self_of_grid (n := 251) (e := -1) (by norm_num) (by norm_num)
    norm_num at this
    exact this
  have a := fl_mono (x := ((125 : ℤ) : ℚ)) (y := 125.4) (by norm_num)
  have b := fl_mono (x := 125.4) (y := 251 / 2) (by norm_num)
  rw [h1] at a
  rw [h2] at b
  exact ⟨by exact_mod_cast a, b⟩

/-- C1 (counterexample). The duration 78000000000000176, a positive binary64
value, is displayed as `1300000000000003:56`, although the whole minutes
`⌊d / 60⌋` are 1300000000000002: the quotient is rounded up before the floor. -/
theorem formatTime_minutes_rounded_up :
    (renderDashboard State.init
      (Item.record { Record.empty with duration := some 78000000000000176 })).durationTime
      = "1300000000000003:56" ∧
    fl 78000000000000176 = 78000000000000176 ∧
    (0 : ℚ) < 78000000000000176 ∧
    ⌊(78000000000000176 : ℚ) / 60⌋ = 1300000000000002 := by
  have hd : fl 78000000000000176 = 78000000000000176 := by
    have := fl_eq_self_of_grid (n := 4875000000000011) (e := 4) (by norm_num) (by norm_num)
    norm_num at this
    exact this
  have hq : fl ((78000000000000176 : ℚ) / 60) = 1300000000000003 := by
    rw [fl_eq_of_binade (e := -2) (by norm_num) (by norm_num [abs_of_pos])
      (by norm_num [abs_of_pos])]
    norm_num [roundHalfEven]
  have hfloor : ⌊(78000000000000176 : ℚ) / 60⌋ = 1300000000000002 := by
    rw [Int.floor_eq_iff]
    norm_num
  refine ⟨?_, hd, by norm_num, hfloor⟩
  have h0 : (78000000000000176 : ℚ) ≠ 0 := by norm_num
  have hrem : jsRem 78000000000000176 60 = 56 := by
    rw [jsRem_pos _ (by norm_num), hfloor]
    norm_num
  rw [renderDashboard_durationTime]
  simp only [Item.fields, durationText, hd, h0, ne_eq, not_false_eq_true, if_true]
  unfold formatTime mathFloor
  rw [hq, hrem]
  have e1 : ⌊(1300000000000003 : ℚ)⌋ = ((1300000000000003 : ℕ) : ℤ) := by
    rw [Int.floor_eq_iff]
    norm_num
  have e2 : ⌊(56 : ℚ)⌋ = ((56 : ℕ) : ℤ) := by
    rw [Int.floor_eq_iff]
    norm_num
  rw [e1, e2]
  simp only []
  rw [intToString_natCast _ (by norm_num), intToString_natCast _ (by norm_num)]
  decide

/-- C1 (amended). A record whose duration `d` (the binary64 number read from
the response) is positive and below `2^53` shows `formatTime d` as its
duration, and that text is the decimal minutes `⌊d / 60⌋`, a colon, and the
seconds `⌊d mod 60⌋` as two zero-padded digits, which lie in `0..59`; a record
of duration 125.4 shows `2:05`. -/
theorem renderDashboard_shows_formatTime :
    (∀ (st : State) (r : Record) (t : ℚ), r.duration = some t → 0 < fl t → fl t < 2 ^ 53 →
      (renderDashboard st (Item.record r)).durationTime = formatTime (fl t) ∧
      formatTime (fl t) = Nat.repr ⌊fl t / 60⌋.toNat ++ ":" ++
        twoDigits (secondsPart (fl t)).toNat ∧
      0 ≤ ⌊fl t / 60⌋ ∧ 0 ≤ secondsPart (fl t) ∧ secondsPart (fl t) < 60 ∧
      (twoDigits (secondsPart (fl t)).toNat).length = 2) ∧
    (∀ (st : State) (r : Record), r.duration = some 125.4 →
      (renderDashboard st (Item.record r)).durationTime = "2:05") := by
  have key : ∀ (st : State) (r : Record) (t : ℚ), r.duration = some t → 0 < fl t →
      (renderDashboard st (Item.record r)).durationTime = formatTime (fl t) := by
    intro st r t hd hpos
    simp [renderDashboard_durationTime, Item.fields, hd, durationText, hpos.ne']
  refine ⟨fun st r t hd hpos h53 => ⟨key st r t hd hpos,
    formatTime_pos (fl t) (fl_fl t) hpos h53, Int.floor_nonneg.mpr (by positivity),
    (secondsPart_bounds _).1, (secondsPart_bounds _).2, rfl⟩, fun st r hd => ?_⟩
  obtain ⟨ha, hb⟩ := fl_literal_125
  have hpos : (0 : ℚ) < fl 125.4 := by linarith
  have h53 : fl 125.4 < 2 ^ 53 := by
    have : (251 / 2 : ℚ) < 2 ^ 53 := by norm_num
    linarith
  rw [key st r _ hd hpos, formatTime_pos _ (fl_fl _) hpos h53]
  generalize fl 125.4 = x at ha hb
  have e1 : ⌊x / 60⌋ = 2 := by
    rw [Int.floor_eq_iff]
    constructor
    · rw [le_div_iff₀ (by norm_num)]
      norm_num
      linarith
    · rw [div_lt_iff₀ (by norm_num)]
      norm_num
      linarith
  have e2 : secondsPart x = 5 := by
    unfold secondsPart
    rw [e1, Int.floor_eq_iff]
    constructor <;> norm_num <;> linarith
  rw [e1, e2]
  rfl

theorem renderDashboard_shows_formatTime_witness :
    (renderDashboard State.init
      (Item.record { Record.empty with duration := some 125.4 })).durationTime = "2:05" :=
  renderDashboard_shows_formatTime.2 State.init
    { Record.empty with duration := some 125.4 } rfl

/-! ### The radar chart -/

theorem abs_fl_sub_le_of_lt {x : ℚ} {n : ℤ} (hn : -1074 ≤ n) (h : |x| < 2 ^ (n + 53)) :
    |fl x - x| ≤ 2 ^ n / 2 := by
  have h1 := abs_fl_sub_le x
  have h2 : (2 : ℚ) ^ binadeExp x ≤ 2 ^ n :=
    zpow_le_zpow_right₀ (by norm_num) (binadeExp_le_of_lt hn h)
  linarith

theorem abs_fl_sub_le_rel {x : ℚ} (h : 2 ^ (-1022 : ℤ) ≤ |x|) : |fl x - x| ≤ |x| / 2 ^ 53 := by
  have hx : 0 < |x| := lt_of_lt_of_le (two_zpow_pos _) h
  have hL : -1022 ≤ Int.log 2 |x| := le_log_of_zpow_le hx h
  have hlo := two_zpow_log_le hx
  have he := binadeExp_of_normal hL hlo (lt_two_zpow_log_succ |x|)
  have h1 := abs_fl_sub_le x
  rw [he] at h1
  have hsplit : (2 : ℚ) ^ (Int.log 2 |x| - 52) = 2 ^ Int.log 2 |x| / 2 ^ 52 := by
    rw [zpow_sub₀ (by norm_num)]
    norm_num
  rw [hsplit] at h1
  calc |fl x - x| ≤ 2 ^ Int.log 2 |x| / 2 ^ 52 / 2 := h1
    _ = 2 ^ Int.log 2 |x| / 2 ^ 53 := by ring
    _ ≤ |x| / 2 ^ 53 := div_le_div_of_nonneg_right hlo (by positivity)

theorem fl_one : fl 1 = 1 := by
  have := fl_intCast (n := 1) (by norm_num)
  simpa using this

theorem fl_hundred : fl 100 = 100 := by
  have := fl_intCast (n := 100) (by norm_num)
  simpa using this

theorem paceNorm_eq_of_le {pace : ℚ} (h : pace ≤ 200) :
    paceNorm pace = fl (fl (pace / 200) * 100) := by
  have h1 : fl (pace / 200) ≤ 1 := by
    have := fl_mono (x := pace / 200) (y := 1) (by rw [div_le_iff₀ (by norm_num)]; linarith)
    rwa [fl_one] at this
  have h2 : fl (fl (pace / 200) * 100) ≤ 100 := by
    have := fl_mono (x := fl (pace / 200) * 100) (y := 100) (by linarith)
    rwa [fl_hundred] at this
  exact min_eq_left h2

theorem paceNorm_near_half {pace : ℚ} (h : |pace| ≤ 200) :
    |paceNorm pace - pace / 2| ≤ 1 / 2 ^ 45 := by
  rw [abs_le] at h
  rw [paceNorm_eq_of_le h.2]
  have hx0 : |pace / 200| ≤ 1 := by
    rw [abs_le]
    constructor
    · rw [le_div_iff₀ (by norm_num)]; linarith
    · rw [div_le_iff₀ (by norm_num)]; linarith
  have e1 := abs_fl_sub_le_of_lt (x := pace / 200) (n := -52) (by norm_num)
    (lt_of_le_of_lt hx0 (by norm_num))
  have hx1 : |fl (pace / 200)| ≤ 1 := by
    rw [abs_le] at hx0 ⊢
    constructor
    · have := fl_mono hx0.1
      rw [fl_neg, fl_one] at this
      exact this
    · have := fl_mono hx0.2
      rwa [fl_one] at this
  have hy : |fl (pace / 200) * 100| < 2 ^ ((-46 : ℤ) + 53) := by
    rw [abs_mul]
    norm_num
    linarith
  have e2 := abs_fl_sub_le_of_lt (x := fl (pace / 200) * 100) (n := -46) (by norm_num) hy
  norm_num at e1 e2
  rw [abs_le] at e1 e2 ⊢
  constructor <;> norm_num <;> linarith [e1.1, e1.2, e2.1, e2.2]

theorem paceNorm_near_half_of_le {pace : ℚ} (h : pace ≤ -200) :
    |paceNorm pace - pace / 2| ≤ |pace| / 2 ^ 52 := by
  rw [paceNorm_eq_of_le (by linarith)]
  have hp : |pace| = -pace := abs_of_neg (by linarith)
  have hx0 : pace / 200 ≤ -1 := by rw [div_le_iff₀ (by norm_num)]; linarith
  have hx0abs : |pace / 200| = -pace / 200 := by
    rw [abs_of_neg (by linarith)]
    ring
  have e1 := abs_fl_sub_le_rel (x := pace / 200) (by
    rw [hx0abs]
    have : (2 : ℚ) ^ (-1022 : ℤ) ≤ 1 := zpow_le_one_of_nonpos₀ (by norm_num) (by norm_num)
    linarith)
  have hx1 : fl (pace / 200) ≤ -1 := by
    have := fl_mono hx0
    rw [fl_neg, fl_one] at this
    exact this
  have hyabs : |fl (pace / 200) * 100| = -fl (pace / 200) * 100 := by
    rw [abs_of_neg (by linarith)]
    ring
  have e2 := abs_fl_sub_le_rel (x := fl (pace / 200) * 100) (by
    rw [hyabs]
    have : (2 : ℚ) ^ (-1022 : ℤ) ≤ 1 := zpow_le_one_of_nonpos₀ (by norm_num) (by norm_num)
    linarith)
  rw [hx0abs] at e1
  rw [hyabs] at e2
  rw [hp]
  rw [abs_le] at e1 e2 ⊢
  norm_num at e1 e2 ⊢
  constructor <;> linarith [e1.1, e1.2, e2.1, e2.2]

theorem paceNorm_mono {p q : ℚ} (h : p ≤ q) : paceNorm p ≤ paceNorm q := by
  unfold paceNorm
  apply min_le_min _ le_rfl
  apply fl_mono
  have := fl_mono (x := p / 200) (y := q / 200) (by linarith)
  linarith

theorem paceNorm_nonneg {pace : ℚ} (h : 0 ≤ pace) : 0 ≤ paceNorm pace := by
  unfold paceNorm
  apply le_min _ (by norm_num)
  apply fl_nonneg
  have := fl_nonneg (x := pace / 200) (by positivity)
  positivity

/-- C10 (counterexample). A pace of 110 is plotted as `55 + 2^-47`
(55.00000000000001), not as `110 / 2`: the quotient `110 / 200` is rounded
before it is multiplied by 100. -/
theorem paceNorm_not_half :
    paceNorm 110 = 55 + 1 / 2 ^ 47 ∧ paceNorm 110 ≠ 110 / 2 ∧
    (renderDashboard State.init
      (Item.record { Record.empty with sonic_dna := some ⟨70, 110, 80⟩ })).dnaChart.map
        RadarChart.data = some [70, 55 + 1 / 2 ^ 47, 80] := by
  have h1 : fl ((110 : ℚ) / 200) = 4953959590107546 / 2 ^ 53 := by
    rw [fl_eq_of_binade (e := -53) (by norm_num) (by norm_num [abs_of_pos])
      (by norm_num [abs_of_pos])]
    norm_num [roundHalfEven]
  have h2 : fl ((4953959590107546 : ℚ) / 2 ^ 53 * 100) = 55 + 1 / 2 ^ 47 := by
    rw [fl_eq_of_binade (e := -47) (by norm_num) (by norm_num [abs_of_pos])
      (by norm_num [abs_of_pos])]
    norm_num [roundHalfEven]
  have hp : paceNorm 110 = 55 + 1 / 2 ^ 47 := by
    unfold paceNorm
    rw [h1, h2]
    norm_num
  have e70 : fl 70 = 70 := by
    have := fl_intCast (n := 70) (by norm_num)
    simpa using this
  have e110 : fl 110 = 110 := by
    have := fl_intCast (n := 110) (by norm_num)
    simpa using this
  have e80 : fl 80 = 80 := by
    have := fl_intCast (n := 80) (by norm_num)
    simpa using this
  refine ⟨hp, ?_, ?_⟩
  · rw [hp]
    norm_num
  · simp only [renderDashboard, Item.fields, renderRadarChart, e70, e110, e80, hp]
    rfl

/-- C10 (amended). The chart plots `[energy, min((pace / 200) * 100, 100),
clarity]` in that order, the quotient and the product each rounded to
binary64; the plotted pace never exceeds 100, is within `2^-45` of `pace / 2`
for a pace between -200 and 200 and within `|pace| / 2^52` of it below -200,
grows with the pace, and stays within `0..100` for a non-negative pace. -/
theorem renderRadarChart_plots_capped_pace :
    (∀ (st : State) (dna : SonicDNA),
      (renderRadarChart st (some dna)).dnaChart.map RadarChart.data
        = some [fl dna.energy, min (fl (fl (fl dna.pace / 200) * 100)) 100,
            fl dna.clarity]) ∧
    (∀ (st : State) (r : Record) (dna : SonicDNA), r.sonic_dna = some dna →
      (renderDashboard st (Item.record r)).dnaChart.map RadarChart.data
        = some [fl dna.energy, min (fl (fl (fl dna.pace / 200) * 100)) 100,
            fl dna.clarity]) ∧
    (∀ pace : ℚ, paceNorm pace ≤ 100) ∧
    (∀ pace : ℚ, |pace| ≤ 200 → |paceNorm pace - pace / 2| ≤ 1 / 2 ^ 45) ∧
    (∀ pace : ℚ, pace ≤ -200 → |paceNorm pace - pace / 2| ≤ |pace| / 2 ^ 52) ∧
    (∀ p q : ℚ, p ≤ q → paceNorm p ≤ paceNorm q) ∧
    (∀ pace : ℚ, 0 ≤ pace → 0 ≤ paceNorm pace ∧ paceNorm pace ≤ 100) := by
  refine ⟨fun st dna => rfl, ?_, fun pace => min_le_right _ _,
    fun pace h => paceNorm_near_half h, fun pace h => paceNorm_near_half_of_le h,
    fun p q h => paceNorm_mono h, fun pace h => ⟨paceNorm_nonneg h, min_le_right _ _⟩⟩
  intro st r dna h
  simp only [renderDashboard, Item.fields, h]
  rfl

theorem renderRadarChart_plots_capped_pace_witness :
    |paceNorm 110 - 110 / 2| ≤ 1 / 2 ^ 45 :=
  renderRadarChart_plots_capped_pace.2.2.2.1 110 (by norm_num [abs_of_pos])


/-! ### The dashboard and the requests -/

theorem renderDashboard_audioSrc (st : State) (data : Item) :
    (renderDashboard st data).audioSrc =
      if truthyStr (resolveAudioSrc data.fields) then resolveAudioSrc data.fields
      else st.audioSrc := by
  simp only [renderDashboard]
  split <;> rfl

/-- C2. A record without a usable `audio_url` (absent or empty) and with a
non-empty filename `f` gets the player source `/uploads/` followed by `f`; a
record with a non-empty `audio_url` gets that URL, whatever its filename. -/
theorem renderDashboard_player_source :
    (∀ (st : State) (r : Record) (f : String),
      (r.audio_url = none ∨ r.audio_url = some "") → r.filename = some f → f ≠ "" →
      (renderDashboard st (Item.record r)).audioSrc = some ("/uploads/" ++ f)) ∧
    (∀ (st : State) (r : Record) (u : String), r.audio_url = some u → u ≠ "" →
      (renderDashboard st (Item.record r)).audioSrc = some u) := by
  constructor
  · intro st r f ha hf hne
    have hlen : ¬ ("/uploads/" ++ f) = "" := by
      intro h
      have := congrArg String.length h
      simp only [String.length_append] at this
      have h9 : "/uploads/".length = 9 := by decide
      have h0 : "".length = 0 := rfl
      omega
    rw [renderDashboard_audioSrc]
    rcases ha with ha | ha <;>
      simp [Item.fields, resolveAudioSrc, hf, ha, truthyStr, hne, hlen]
  · intro st r u hu hne
    rw [renderDashboard_audioSrc]
    cases hf : r.filename <;>
      simp [Item.fields, resolveAudioSrc, hf, hu, truthyStr, hne]

theorem renderDashboard_player_source_witness :
    (renderDashboard State.init
      (Item.record { Record.empty with filename := some "x.mp3" })).audioSrc
      = some ("/uploads/" ++ "x.mp3") :=
  renderDashboard_player_source.1 State.init
    { Record.empty with filename := some "x.mp3" } "x.mp3" (Or.inl rfl) rfl (by decide)

theorem uploadFile_rejected (st : State) (file : String) (e : JSError)
    (hist : Except JSError (List Item)) :
    uploadFile st file (.error e) hist =
      { st with
        uploadStatusHidden := true
        uploadBtnDisabled := false
        uploadBtnHTML := "Start Transcribing"
        requests := st.requests ++
          [{ method := "POST", url := "/upload", body := Body.formData "audio" file }]
        alerts := st.alerts ++ ["Upload Failed: " ++ e.message]
        bodyCursor := "default" } := rfl

theorem uploadFile_error_field (st : State) (file : String) (data : UploadResponse)
    (msg : String) (hist : Except JSError (List Item))
    (h : data.error = some msg) (hne : msg ≠ "") :
    uploadFile st file (.ok data) hist =
      { st with
        uploadStatusHidden := true
        uploadBtnDisabled := false
        uploadBtnHTML := "Start Transcribing"
        requests := st.requests ++
          [{ method := "POST", url := "/upload", body := Body.formData "audio" file }]
        alerts := st.alerts ++ ["Upload Failed: " ++ msg]
        bodyCursor := "default" } := by
  simp only [uploadFile, h, hne, ne_eq, not_false_eq_true, if_true]
  rfl

/-- C4. After a failed upload (the call is rejected, or the response carries a
non-empty `error`) the upload button is enabled and labelled
`Start Transcribing`, the status indicator is hidden, and the current record
is the one held before: besides the button, the indicator, the cursor, the
request and the alert, nothing on the page has changed. -/
theorem uploadFile_failure_resets (st : State) (file : String)
    (outcome : Except JSError UploadResponse) (hist : Except JSError (List Item))
    (hfail : (∃ e, outcome = .error e) ∨
      (∃ data msg, outcome = .ok data ∧ data.error = some msg ∧ msg ≠ "")) :
    (uploadFile st file outcome hist).uploadBtnDisabled = false ∧
    (uploadFile st file outcome hist).uploadBtnHTML = "Start Transcribing" ∧
    (uploadFile st file outcome hist).uploadStatusHidden = true ∧
    (uploadFile st file outcome hist).currentData = st.currentData ∧
    (∃ msg, uploadFile st file outcome hist =
      { st with
        uploadStatusHidden := true
        uploadBtnDisabled := false
        uploadBtnHTML := "Start Transcribing"
        requests := st.requests ++
          [{ method := "POST", url := "/upload", body := Body.formData "audio" file }]
        alerts := st.alerts ++ ["Upload Failed: " ++ msg]
        bodyCursor := "default" }) := by
  rcases hfail with ⟨e, rfl⟩ | ⟨data, msg, rfl, h, hne⟩
  · rw [uploadFile_rejected]
    exact ⟨rfl, rfl, rfl, rfl, e.message, rfl⟩
  · rw [uploadFile_error_field st file data msg hist h hne]
    exact ⟨rfl, rfl, rfl, rfl, msg, rfl⟩

theorem uploadFile_failure_resets_witness :
    (uploadFile (renderDashboard State.init (Item.bare "a.mp3")) "b.mp3"
      (.ok { error := some "too large", record := Record.empty }) (.ok [])).currentData
      = some (Item.bare "a.mp3") :=
  (uploadFile_failure_resets (renderDashboard State.init (Item.bare "a.mp3")) "b.mp3"
    (.ok { error := some "too large", record := Record.empty }) (.ok [])
    (Or.inr ⟨_, "too large", rfl, rfl, by decide⟩)).2.2.2.1

theorem hasCurrent_record (st : State) (r : Record) (h : st.currentData = some (Item.record r)) :
    st.hasCurrent = true ∧ st.current = r := by
  simp [State.hasCurrent, State.current, h, Item.truthy, Item.fields]

theorem translateContent_rejected (st : State) (lang : String) (e : JSError)
    (h : st.hasCurrent = true) :
    (translateContent st lang (.error e)).alerts
      = st.alerts ++ ["Translation failed: " ++ e.toStr] := by
  simp [translateContent, h, State.alert, State.fetch]

theorem showTranslation_frame (st : State) (data : TranslateResponse) :
    (showTranslation st data).alerts = st.alerts ∧
    (showTranslation st data).requests = st.requests ∧
    (showTranslation st data).currentData = st.currentData := by
  unfold showTranslation
  cases data.translated_transcript <;> cases data.translated_summary <;>
    dsimp only <;> (try split_ifs) <;> exact ⟨rfl, rfl, rfl⟩

theorem translateContent_error_field (st : State) (lang : String) (data : TranslateResponse)
    (msg : String) (h : st.hasCurrent = true) (he : data.error = some msg) (hne : msg ≠ "") :
    (translateContent st lang (.ok data)).alerts
      = st.alerts ++ ["Translation error: " ++ msg] := by
  simp [translateContent, h, State.alert, State.fetch, showTranslation_frame,
    translationAlert, he, hne]

/-- C3 (counterexample). A rejected `GET /history`, a rejected `DELETE`, and a
rejected `POST /download_pdf` each leave the list of alerts empty. -/
theorem rejected_calls_without_alert :
    (loadHistory State.init (.error ⟨"TypeError", "Failed to fetch"⟩)).alerts = [] ∧
    (deleteFile State.init "x.mp3" true (.error ⟨"TypeError", "Failed to fetch"⟩)
      (.ok [])).alerts = [] ∧
    (downloadPDF (renderDashboard State.init (Item.bare "x.mp3"))
      (.error ⟨"TypeError", "Failed to fetch"⟩)).alerts = [] := by
  refine ⟨rfl, rfl, ?_⟩
  decide

/-- C3 (amended). For the upload and the translation, a rejected call and a
response with a non-empty `error` each add an alert; the history load, the
deletion and the PDF download have no rejection handler and add none. -/
theorem upload_translate_failures_alert :
    (∀ (st : State) (file : String) (e : JSError) (hist : Except JSError (List Item)),
      (uploadFile st file (.error e) hist).alerts
        = st.alerts ++ ["Upload Failed: " ++ e.message]) ∧
    (∀ (st : State) (file : String) (data : UploadResponse) (msg : String)
      (hist : Except JSError (List Item)), data.error = some msg → msg ≠ "" →
      (uploadFile st file (.ok data) hist).alerts = st.alerts ++ ["Upload Failed: " ++ msg]) ∧
    (∀ (st : State) (lang : String) (e : JSError), st.hasCurrent = true →
      (translateContent st lang (.error e)).alerts
        = st.alerts ++ ["Translation failed: " ++ e.toStr]) ∧
    (∀ (st : State) (lang : String) (data : TranslateResponse) (msg : String),
      st.hasCurrent = true → data.error = some msg → msg ≠ "" →
      (translateContent st lang (.ok data)).alerts
        = st.alerts ++ ["Translation error: " ++ msg]) ∧
    (∀ (st : State) (e : JSError), (loadHistory st (.error e)).alerts = st.alerts) ∧
    (∀ (st : State) (filename : String) (confirmed : Bool) (e : JSError)
      (hist : Except JSError (List Item)),
      (deleteFile st filename confirmed (.error e) hist).alerts = st.alerts) ∧
    (∀ (st : State) (e : JSError), (downloadPDF st (.error e)).alerts = st.alerts) := by
  refine ⟨fun st file e hist => rfl, ?_, translateContent_rejected,
    translateContent_error_field, fun st e => rfl, ?_, ?_⟩
  · intro st file data msg hist h hne
    rw [uploadFile_error_field st file data msg hist h hne]
  · intro st filename confirmed e hist
    cases confirmed <;> rfl
  · intro st e
    unfold downloadPDF
    split <;> rfl

theorem upload_translate_failures_alert_witness :
    (uploadFile State.init "b.mp3"
      (.ok { error := some "too large", record := Record.empty }) (.ok [])).alerts
      = State.init.alerts ++ ["Upload Failed: " ++ "too large"] :=
  upload_translate_failures_alert.2.1 State.init "b.mp3"
    { error := some "too large", record := Record.empty } "too large" (.ok []) rfl (by decide)

/-- C5 (counterexample). For a current record without a filename the title
sent is `Transcript`, yet the download is named `transcript_report.pdf`, which
is not that title followed by `_report.pdf`. -/
theorem downloadPDF_default_title_mismatch :
    (downloadPDF (renderDashboard State.init (Item.record Record.empty)) (.ok ())).requests
      = [{ method := "POST", url := "/download_pdf",
           body := Body.pdfJson "Transcript" "No transcript available."
             "No summary available." }] ∧
    (downloadPDF (renderDashboard State.init (Item.record Record.empty)) (.ok ())).downloads
      = ["transcript_report.pdf"] ∧
    "transcript_report.pdf" ≠ "Transcript" ++ "_report.pdf" := by
  decide

/-- C5 (amended). For a current record with a non-empty filename `f`,
`downloadPDF` sends the body `{title: f, transcript, summary}` (the two texts
as displayed) and names the download `f_report.pdf`. -/
theorem downloadPDF_title_and_name (st : State) (r : Record) (f : String)
    (hc : st.currentData = some (Item.record r)) (hf : r.filename = some f) (hne : f ≠ "") :
    (downloadPDF st (.ok ())).requests = st.requests ++
      [{ method := "POST", url := "/download_pdf",
         body := Body.pdfJson f st.transcriptContent st.summaryContent }] ∧
    (downloadPDF st (.ok ())).downloads = st.downloads ++ [f ++ "_report.pdf"] := by
  obtain ⟨h1, h2⟩ := hasCurrent_record st r hc
  simp [downloadPDF, h1, State.fetch, State.current, hc, Item.fields, hf, orStr, hne]

theorem downloadPDF_title_and_name_witness :
    (downloadPDF (renderDashboard State.init
      (Item.record { Record.empty with filename := some "x.mp3" })) (.ok ())).downloads
      = (renderDashboard State.init
          (Item.record { Record.empty with filename := some "x.mp3" })).downloads
        ++ ["x.mp3" ++ "_report.pdf"] :=
  (downloadPDF_title_and_name
    (renderDashboard State.init (Item.record { Record.empty with filename := some "x.mp3" }))
    { Record.empty with filename := some "x.mp3" } "x.mp3" rfl rfl (by decide)).2

/-- C6 (counterexample). When the confirmation prompt is declined, `deleteFile`
sends no request at all. -/
theorem deleteFile_declined_sends_nothing :
    (deleteFile State.init "x.mp3" false (.ok ()) (.ok [])).requests = [] := rfl

theorem loadHistory_requests (st : State) (outcome : Except JSError (List Item)) :
    (loadHistory st outcome).requests
      = st.requests ++ [{ method := "GET", url := "/history", body := Body.none }] := by
  have hfold : ∀ (files : List Item) (acc : State),
      (files.foldl (fun acc item =>
        { acc with historyContainer := acc.historyContainer ++ [historyEntry item] })
        acc).requests = acc.requests := by
    intro files
    induction files with
    | nil => intro acc; rfl
    | cons x xs ih => intro acc; rw [List.foldl_cons, ih]
  cases outcome with
  | error e => rfl
  | ok files =>
    simp only [loadHistory]
    split
    · rfl
    · rw [hfold]
      rfl

/-- C6 (amended). Once the user confirms the prompt, `deleteFile` sends
`DELETE /delete/<filename>` with no body, and a fulfilled call is followed by
one `loadHistory`, hence one `GET /history`; a declined prompt sends nothing. -/
theorem deleteFile_confirmed_refreshes :
    (∀ (st : State) (filename : String) (hist : Except JSError (List Item)),
      deleteFile st filename true (.ok ()) hist =
        loadHistory
          (({ st with confirms := st.confirms ++ ["Delete " ++ filename ++ "?"] } : State).fetch
            { method := "DELETE", url := "/delete/" ++ filename, body := Body.none }) hist ∧
      (deleteFile st filename true (.ok ()) hist).requests = st.requests ++
        [{ method := "DELETE", url := "/delete/" ++ filename, body := Body.none },
         { method := "GET", url := "/history", body := Body.none }]) ∧
    (∀ (st : State) (filename : String) (outcome : Except JSError Unit)
      (hist : Except JSError (List Item)),
      (deleteFile st filename false outcome hist).requests = st.requests) := by
  constructor
  · intro st filename hist
    refine ⟨rfl, ?_⟩
    simp [deleteFile, loadHistory_requests, State.fetch]
  · intro st filename outcome hist
    rfl

theorem loadHistory_fold_container (files : List Item) (acc : State) :
    (files.foldl (fun acc item =>
      { acc with historyContainer := acc.historyContainer ++ [historyEntry item] })
      acc).historyContainer = acc.historyContainer ++ files.map historyEntry := by
  induction files generalizing acc with
  | nil => simp
  | cons x xs ih => rw [List.foldl_cons, ih]; simp

/-- C7 (counterexample). A history holding one record whose filename is the
empty string yields an entry labelled `[object Object]`, not the filename. -/
theorem loadHistory_record_without_name :
    (loadHistory State.init
      (.ok [Item.record { Record.empty with filename := some "" }])).historyContainer
      = [Node.div historyEntryClass (historyEntryHTML "[object Object]")] ∧
    "[object Object]" ≠ "" := by
  refine ⟨rfl, by decide⟩

/-- C7 (amended). An empty history response leaves the container holding
exactly the `No recent uploads found.` paragraph and no entry; a non-empty one
yields one entry per item, in the order of the response; the entry of a bare
filename shows the item itself, and that of a record with a non-empty filename
shows that filename, in its label and in its `Load` and delete handlers. -/
theorem loadHistory_renders_entries :
    (∀ st : State,
      (loadHistory st (.ok [])).historyContainer =
        [Node.html
          "<p class=\"text-slate-500 text-xs text-center italic\">No recent uploads found.</p>"]) ∧
    (∀ (st : State) (files : List Item), files ≠ [] →
      (loadHistory st (.ok files)).historyContainer = files.map historyEntry ∧
      (loadHistory st (.ok files)).historyContainer.length = files.length) ∧
    (∀ (item : Item) (label : String), item.specName = some label →
      (item = Item.bare label ∨ label ≠ "") →
      historyEntry item =
        Node.div
          "flex items-center justify-between p-3 hover:bg-white/5 rounded-xl cursor-pointer group transition-colors border-b border-white/5 last:border-0"
          ("\n                <div class=\"flex items-center gap-3\" onclick=\"loadFromHistory('"
            ++ label ++
          "')\">\n                    <div class=\"w-8 h-8 rounded-lg bg-[#bc13fe]/20 flex items-center justify-center\">\n                        <span class=\"material-symbols-outlined text-[#bc13fe] text-xs\">graphic_eq</span>\n                    </div>\n                    <span class=\"text-sm font-bold text-slate-300 group-hover:text-white\">"
            ++ label ++
          "</span>\n                </div>\n                 <div class=\"flex gap-2\">\n                    <button class=\"text-xs text-[#00f2ff] hover:underline\" onclick=\"loadFromHistory('"
            ++ label ++
          "')\">Load</button>\n                    <button onclick=\"deleteFile('"
            ++ label ++
          "', event)\" class=\"text-slate-500 hover:text-red-500\">\n                        <span class=\"material-symbols-outlined text-sm\">delete</span>\n                    </button>\n                </div>\n            ")) := by
  refine ⟨fun st => rfl, ?_, ?_⟩
  · intro st files hne
    have hlen : ¬ files.length = 0 := by
      intro h
      exact hne (List.length_eq_zero.mp h)
    have hc : (loadHistory st (.ok files)).historyContainer = files.map historyEntry := by
      simp only [loadHistory, hlen, if_false]
      rw [loadHistory_fold_container]
      rfl
    exact ⟨hc, by rw [hc, List.length_map]⟩
  · intro item label hname hor
    have hfile : item.fileName = label := by
      cases item with
      | bare s =>
        simp only [Item.specName, Option.some.injEq] at hname
        simp [Item.fileName, Item.nameValue, hname]
      | record r =>
        have hl : label ≠ "" := by
          rcases hor with h | h
          · cases h
          · exact h
        simp only [Item.specName] at hname
        simp [Item.fileName, Item.nameValue, hname, hl]
    simp only [historyEntry, hfile, historyEntryClass, historyEntryHTML]

theorem loadHistory_renders_entries_witness :
    (loadHistory State.init
      (.ok [Item.bare "a.mp3", Item.record { Record.empty with filename := some "b.mp3" }])
      ).historyContainer
      = [Item.bare "a.mp3", Item.record { Record.empty with filename := some "b.mp3" }].map
          historyEntry :=
  (loadHistory_renders_entries.2.1 State.init
    [Item.bare "a.mp3", Item.record { Record.empty with filename := some "b.mp3" }]
    (by simp)).1

theorem translateContent_currentData (st : State) (lang : String)
    (outcome : Except JSError TranslateResponse) :
    (translateContent st lang outcome).currentData = st.currentData := by
  unfold translateContent
  split
  · rfl
  · cases outcome with
    | error e => rfl
    | ok data => exact (showTranslation_frame _ data).2.2

theorem translateContent_requests (st : State) (r : Record) (lang : String)
    (outcome : Except JSError TranslateResponse)
    (h : st.currentData = some (Item.record r)) :
    (translateContent st lang outcome).requests = st.requests ++ [translateRequest r lang] := by
  obtain ⟨h1, h2⟩ := hasCurrent_record st r h
  cases outcome with
  | error e => simp [translateContent, h1, h2, State.fetch, State.alert, translateRequest]
  | ok data =>
    simp [translateContent, h1, h2, State.fetch, State.alert, translateRequest,
      showTranslation_frame]

theorem translateAll_requests (r : Record)
    (steps : List (String × Except JSError TranslateResponse)) (st : State)
    (h : st.currentData = some (Item.record r)) :
    (translateAll st steps).requests
      = st.requests ++ steps.map (fun step => translateRequest r step.1) ∧
    (translateAll st steps).currentData = st.currentData := by
  induction steps generalizing st with
  | nil => simp [translateAll]
  | cons x xs ih =>
    have hc := translateContent_currentData st x.1 x.2
    have := ih (translateContent st x.1 x.2) (by rw [hc, h])
    simp only [translateAll, List.foldl_cons] at this ⊢
    rw [this.1, this.2, translateContent_requests st r x.1 x.2 h, hc]
    simp

/-- C8. With a record `r` current, `translateContent(lang)` posts the body
`{transcript: r.transcript, summary: r.summary, target_lang: lang}`, whatever
text is displayed; it never changes the current record, so every request of a
run of successive translations carries the texts of `r`; with no current
record it sends nothing and changes nothing. -/
theorem translateContent_sends_original :
    (∀ (st : State) (r : Record) (lang : String)
      (outcome : Except JSError TranslateResponse),
      st.currentData = some (Item.record r) →
      (translateContent st lang outcome).requests = st.requests ++
        [{ method := "POST", url := "/translate",
           body := Body.translateJson r.transcript r.summary lang }]) ∧
    (∀ (st : State) (lang : String) (outcome : Except JSError TranslateResponse),
      (translateContent st lang outcome).currentData = st.currentData) ∧
    (∀ (st : State) (r : Record)
      (steps : List (String × Except JSError TranslateResponse)),
      st.currentData = some (Item.record r) →
      (translateAll st steps).requests = st.requests ++
        steps.map (fun step =>
          { method := "POST", url := "/translate",
            body := Body.translateJson r.transcript r.summary step.1 }) ∧
      (translateAll st steps).currentData = some (Item.record r)) ∧
    (∀ (st : State) (lang : String) (outcome : Except JSError TranslateResponse),
      st.currentData = none →
      translateContent st lang outcome = st ∧
      (translateContent st lang outcome).requests = st.requests) := by
  refine ⟨fun st r lang outcome h => translateContent_requests st r lang outcome h,
    translateContent_currentData, ?_, ?_⟩
  · intro st r steps h
    obtain ⟨h1, h2⟩ := translateAll_requests r steps st h
    exact ⟨h1, by rw [h2, h]⟩
  · intro st lang outcome h
    have : translateContent st lang outcome = st := by
      simp [translateContent, State.hasCurrent, h]
    exact ⟨this, by rw [this]⟩

theorem translateContent_sends_original_witness :
    (translateContent
      (renderDashboard State.init
        (Item.record { Record.empty with transcript := some "hello" }))
      "fr" (.ok ⟨some "bonjour", none, none⟩)).requests
      = (renderDashboard State.init
          (Item.record { Record.empty with transcript := some "hello" })).requests ++
        [{ method := "POST", url := "/translate",
           body := Body.translateJson
             ({ Record.empty with transcript := some "hello" } : Record).transcript
             ({ Record.empty with transcript := some "hello" } : Record).summary "fr" }] :=
  translateContent_sends_original.1
    (renderDashboard State.init (Item.record { Record.empty with transcript := some "hello" }))
    { Record.empty with transcript := some "hello" } "fr" (.ok ⟨some "bonjour", none, none⟩)
    rfl

theorem nameValue_eq_iff_specName (f : Item) (filename : String) (hne : filename ≠ "") :
    f.nameValue = some filename ↔ f.specName = some filename := by
  cases f with
  | bare s => rfl
  | record r =>
    simp only [Item.nameValue, Item.specName]
    cases hf : r.filename with
    | none => simp
    | some g =>
      by_cases hg : g = ""
      · subst hg
        simp
        exact fun h => hne h.symm
      · simp [hg]

theorem truthy_of_specName (f : Item) (filename : String) (hne : filename ≠ "")
    (h : f.specName = some filename) : f.truthy = true := by
  cases f with
  | bare s =>
    simp only [Item.specName, Option.some.injEq] at h
    simp [Item.truthy, h, hne]
  | record r => rfl

/-- C9 (counterexample). With the history `[""]`, a bare filename whose name
is the empty string, `loadFromHistory("")` shows the not-found alert and
leaves the current record unset, although the first item has the given name. -/
theorem loadFromHistory_empty_name_not_found :
    [Item.bare ""].find? (fun f => decide (f.specName = some "")) = some (Item.bare "") ∧
    loadFromHistory { State.init with historyData := some [Item.bare ""] } ""
      = some (({ State.init with historyData := some [Item.bare ""] } : State).alert
          "File data not found in local history.") ∧
    (({ State.init with historyData := some [Item.bare ""] } : State).alert
      "File data not found in local history.").currentData = none := by
  refine ⟨by decide, rfl, rfl⟩

/-- C9 (amended). For a loaded history list and a non-empty filename,
`loadFromHistory` renders and makes current the first item whose name (its
filename field, or the item itself when it is a bare filename) equals the
filename; when no item has that name it shows the alert
`File data not found in local history.` and changes nothing else. -/
theorem loadFromHistory_first_match (st : State) (files : List Item) (filename : String)
    (hh : st.historyData = some files) (hne : filename ≠ "") :
    (∀ item : Item,
      files.find? (fun f => decide (f.specName = some filename)) = some item →
      loadFromHistory st filename = some
        { renderDashboard st item with
          dashboardScrolls := (renderDashboard st item).dashboardScrolls + 1 } ∧
      ∃ st', loadFromHistory st filename = some st' ∧ st'.currentData = some item) ∧
    ((∀ f ∈ files, f.specName ≠ some filename) →
      loadFromHistory st filename = some (st.alert "File data not found in local history.") ∧
      (st.alert "File data not found in local history.")
        = { st with alerts := st.alerts ++ ["File data not found in local history."] }) := by
  have hpred : (fun f : Item => decide (f.nameValue = some filename))
      = (fun f : Item => decide (f.specName = some filename)) := by
    funext f
    simp only [nameValue_eq_iff_specName f filename hne]
  have hcur : ∀ item, (renderDashboard st item).currentData = some item := by
    intro item
    simp only [renderDashboard]
    split <;> rfl
  constructor
  · intro item hfind
    have hname : item.specName = some filename := by
      have := List.find?_some hfind
      simpa using this
    have htru := truthy_of_specName item filename hne hname
    have hres : loadFromHistory st filename = some
        { renderDashboard st item with
          dashboardScrolls := (renderDashboard st item).dashboardScrolls + 1 } := by
      simp only [loadFromHistory, hh, hpred, hfind, htru, if_true]
    exact ⟨hres, _, hres, hcur item⟩
  · intro hall
    have hfind : files.find? (fun f => decide (f.specName = some filename)) = none := by
      rw [List.find?_eq_none]
      intro f hf
      simpa using hall f hf
    have hres : loadFromHistory st filename
        = some (st.alert "File data not found in local history.") := by
      simp only [loadFromHistory, hh, hpred, hfind]
    exact ⟨hres, rfl⟩

theorem loadFromHistory_first_match_witness :
    ∃ st', loadFromHistory
        { State.init with
          historyData := some [Item.bare "a.mp3",
            Item.record { Record.empty with filename := some "b.mp3" }] } "b.mp3" = some st' ∧
      st'.currentData = some (Item.record { Record.empty with filename := some "b.mp3" }) :=
  ((loadFromHistory_first_match
    { State.init with
      historyData := some [Item.bare "a.mp3",
        Item.record { Record.empty with filename := some "b.mp3" }] }
    [Item.bare "a.mp3", Item.record { Record.empty with filename := some "b.mp3" }] "b.mp3"
    rfl (by decide)).1
    (Item.record { Record.empty with filename := some "b.mp3" }) (by decide)).2

end Transciber
